import Mathlib

/-!
Shallow embedding of the yswift FFI layer (`src/lib/src/`): the transaction
lifecycle (`transaction.rs`), the array facade (`array.rs`), the document
operations (`doc.rs`), the text facade (`text.rs`) and the map change-event
conversion (`mapchange.rs`).

The underlying CRDT engine (yrs) is out of scope of the repository and is
treated as a black box: engine calls (`encode_update_v1`, `apply_update`,
`Update::decode_v1`, `Any::from_json`, `any.to_json`, subdocument listings,
text edits) enter the embedding as explicit function parameters, and the
engine store enters as an abstract state type.  Machinery of the wrapper
layer itself (the `Option<TransactionMut>` freed-transaction cell, `unwrap`
panics, error mapping, filtering of heterogeneous `Out` values) is
translated directly from the Rust source.
-/

/-- Modelled from the spec: `error.rs` is not under `src/`.  Section 7 of the
spec gives the error taxonomy as exactly two variants, `EncodingError` and
`DecodingError`; the source files use `CodingError::EncodingError` and
`CodingError::DecodingError` and no other variant. -/
inductive CodingError where
  | EncodingError
  | DecodingError
deriving DecidableEq, Repr

/-- Outcome of one Rust call observed across the FFI boundary: either a
normal return, or a panic (in this layer always an `Option::unwrap` of
`None`, or a failed `Any::from_json(..).unwrap()`). -/
inductive RustResult (α : Type) where
  | ok (value : α)
  | panicked
deriving DecidableEq, Repr

/-- The `yrs::Out` heterogeneous value variant (`array.rs`, `mapchange.rs`
match on it): a JSON-serialisable scalar (`Out::Any`, payload abstract in
`α`), nested shared types carrying a branch reference, or the undefined
reference marker. -/
inductive Out (α : Type) where
  | any (value : α)
  | ymap (branch : Nat)
  | yarray (branch : Nat)
  | ytext (branch : Nat)
  | yxmlElement (branch : Nat)
  | yxmlFragment (branch : Nat)
  | yxmlText (branch : Nat)
  | ydoc (branch : Nat)
  | undefinedRef (branch : Nat)
deriving DecidableEq, Repr

/-- The live payload of a `TransactionMut` as seen by the wrapper: the origin
tag carried by the transaction (bytes, or absent) and the engine store,
abstract in `σ`. -/
structure TxState (σ : Type) where
  origin : Option (List Nat)
  store : σ
deriving DecidableEq, Repr

/-- A `YrsTransaction` cell: `ReentrantMutex<UnsafeCell<Option<TransactionMut>>>`.
Locking is transparent in the sequential semantics, so the cell is its
`Option` content; `none` is the freed state. -/
def YrsTransactionCell (σ : Type) : Type := Option (TxState σ)

/-- `YrsTransaction::free` (`transaction.rs` lines 171-175): overwrites the
cell content with `None`, unconditionally. -/
def YrsTransaction.free (_t : YrsTransactionCell σ) : YrsTransactionCell σ :=
  none

/-- `YrsTransaction::origin` (`transaction.rs` lines 77-80):
`guard.as_ref()?.origin().cloned().map(YrsOrigin::from)` — the `?` returns
`None` on a freed transaction, otherwise the transaction's origin bytes are
cloned out. -/
def YrsTransaction.origin : YrsTransactionCell σ → Option (List Nat)
  | none => none
  | some tx => tx.origin

/-- `YrsTransaction::transaction_encode_update` (`transaction.rs` lines
82-85): `guard.as_ref().unwrap().encode_update_v1()`; the `unwrap` panics on
a freed transaction.  `encode` is the engine's `encode_update_v1`. -/
def YrsTransaction.transaction_encode_update (encode : σ → List Nat) :
    YrsTransactionCell σ → RustResult (List Nat)
  | none => .panicked
  | some tx => .ok (encode tx.store)

/-- `YrsTransaction::transaction_state_vector` (`transaction.rs` lines
105-108): `guard.as_ref().unwrap().state_vector().encode_v1()`; panics on a
freed transaction.  `sv` is the engine's state-vector encoder. -/
def YrsTransaction.transaction_state_vector (sv : σ → List Nat) :
    YrsTransactionCell σ → RustResult (List Nat)
  | none => .panicked
  | some tx => .ok (sv tx.store)

/-- `YrsTransaction::transaction_apply_update` (`transaction.rs` lines
110-120): first `Update::decode_v1(update)` (engine decoder `decode`,
failure mapped to `DecodingError` before the transaction cell is ever
touched), then `guard.as_mut().unwrap().apply_update(u)` (engine `apply`;
the `unwrap` panics on a freed transaction; an engine error is mapped to
`DecodingError`).  `apply` returns the resulting store in both outcomes
since the engine is opaque about mutation on failure.  The result pairs the
Rust return value with the cell after the call. -/
def YrsTransaction.transaction_apply_update (decode : List Nat → Option υ)
    (apply : σ → υ → Except σ σ) (t : YrsTransactionCell σ) (update : List Nat) :
    RustResult (Except CodingError Unit × YrsTransactionCell σ) :=
  match decode update with
  | none => .ok (.error .DecodingError, t)
  | some u =>
    match t with
    | none => .panicked
    | some tx =>
      match apply tx.store u with
      | .ok s => .ok (.ok (), some ⟨tx.origin, s⟩)
      | .error s => .ok (.error .DecodingError, some ⟨tx.origin, s⟩)

/-- `YrsTransaction::subdoc_guids` (`transaction.rs` lines 152-157):
`guard.as_ref().map(|txn| ...collect()).unwrap_or_default()` — a freed
transaction yields the default empty vector, a live one yields the engine's
subdocument GUID listing `guids`. -/
def YrsTransaction.subdoc_guids (guids : σ → List String) :
    YrsTransactionCell σ → List String
  | none => []
  | some tx => guids tx.store

/-- `YrsTransaction::subdocs` (`transaction.rs` lines 160-169): same
`map ... unwrap_or_default` shape; subdocuments are identified abstractly by
`Nat` handles produced by the engine listing `docs`. -/
def YrsTransaction.subdocs (docs : σ → List Nat) :
    YrsTransactionCell σ → List Nat
  | none => []
  | some tx => docs tx.store

/-- `YrsDoc::transact` (`doc.rs` lines 83-91): opens a `TransactionMut` on
the document's store, via `transact_mut_with(origin)` when an origin is
given and `transact_mut()` otherwise.  Modelled from the spec for the engine
part: the engine attaches the given origin tag to the new transaction and
none otherwise (spec section 4.2 `begin(document, origin?)`, section 6
origin tags).  The `YrsOrigin` conversions in `doc.rs` (lines 232-257) are
byte-preserving on both directions. -/
def YrsDoc.transact (store : σ) (origin : Option (List Nat)) :
    YrsTransactionCell σ :=
  some ⟨origin, store⟩

/-- `YrsDoc::destroy` (`doc.rs` lines 117-122): `if let Some(tx) =
tx.as_mut() { self.doc().as_ref().destroy(tx) }` — nothing at all happens
when the parent transaction is freed; otherwise the engine call `engineDestroy`
runs against the document (abstract in `δ`) and the transaction store. -/
def YrsDoc.destroy (engineDestroy : δ → σ → δ × σ) (doc : δ)
    (parent : YrsTransactionCell σ) : δ × YrsTransactionCell σ :=
  match parent with
  | none => (doc, none)
  | some tx =>
    let r := engineDestroy doc tx.store
    (r.1, some ⟨tx.origin, r.2⟩)

/-- `YrsDoc::load` (`doc.rs` lines 130-135): same guarded shape as
`destroy`, delegating to the engine's `load`. -/
def YrsDoc.load (engineLoad : δ → σ → δ × σ) (doc : δ)
    (parent : YrsTransactionCell σ) : δ × YrsTransactionCell σ :=
  match parent with
  | none => (doc, none)
  | some tx =>
    let r := engineLoad doc tx.store
    (r.1, some ⟨tx.origin, r.2⟩)

/-- `YrsArray::each` (`array.rs` lines 78-97): unwraps the transaction
(panic when freed), then iterates the array contents invoking the delegate
once per element — with the JSON encoding `toJson` of the scalar for
`Out::Any` values, and with the still-empty `buf` (the empty string) for
every other variant (the `@TODO` branch also calls the delegate).  The
result is the ordered trace of strings passed to the delegate. -/
def YrsArray.each (toJson : α → String) (t : YrsTransactionCell σ)
    (arr : List (Out α)) : RustResult (List String) :=
  match t with
  | none => .panicked
  | some _ =>
    .ok (arr.map fun v =>
      match v with
      | .any a => toJson a
      | _ => "")

/-- `YrsArray::to_a` (`array.rs` lines 205-224): unwraps the transaction
(panic when freed), then `filter_map`s the contents keeping only `Out::Any`
values, JSON-encoded. -/
def YrsArray.to_a (toJson : α → String) (t : YrsTransactionCell σ)
    (arr : List (Out α)) : RustResult (List String) :=
  match t with
  | none => .panicked
  | some _ =>
    .ok (arr.filterMap fun v =>
      match v with
      | .any a => some (toJson a)
      | _ => none)

/-- `YrsArray::get` (`array.rs` lines 99-119): unwraps the transaction
(panic when freed); `arr.get(tx, index)` (the engine returns the element
when `index` is in range and `None` otherwise, modelled by list indexing);
an `Out::Any` value is JSON-encoded into `Ok`, any other variant gives
`Err(EncodingError)`, and an absent element also gives
`Err(EncodingError)`. -/
def YrsArray.get (toJson : α → String) (t : YrsTransactionCell σ)
    (arr : List (Out α)) (index : Nat) :
    RustResult (Except CodingError String) :=
  match t with
  | none => .panicked
  | some _ =>
    match arr[index]? with
    | some (.any a) => .ok (.ok (toJson a))
    | some _ => .ok (.error .EncodingError)
    | none => .ok (.error .EncodingError)

/-- `YrsArray::length` (`array.rs` lines 149-155): unwraps the transaction
(panic when freed), then `arr.len(tx)`. -/
def YrsArray.length (t : YrsTransactionCell σ) (arr : List (Out α)) :
    RustResult Nat :=
  match t with
  | none => .panicked
  | some _ => .ok arr.length

/-- `YrsArray::insert` (`array.rs` lines 121-129): first
`Any::from_json(value).unwrap()` (engine parser `fromJson`; panic when the
string is not valid JSON), then unwraps the transaction (panic when freed),
then the engine insertion `engineInsert`. -/
def YrsArray.insert (fromJson : String → Option α)
    (engineInsert : List (Out α) → Nat → Out α → List (Out α))
    (t : YrsTransactionCell σ) (arr : List (Out α)) (index : Nat)
    (value : String) : RustResult (List (Out α)) :=
  match fromJson value with
  | none => .panicked
  | some a =>
    match t with
    | none => .panicked
    | some _ => .ok (engineInsert arr index (.any a))

/-- `YrsArray::is_undefined` (`array.rs` lines 303-308): unwraps the
transaction (panic when freed), then
`matches!(arr.get(tx, index), Some(Out::UndefinedRef(_)))`. -/
def YrsArray.is_undefined (t : YrsTransactionCell σ) (arr : List (Out α))
    (index : Nat) : RustResult Bool :=
  match t with
  | none => .panicked
  | some _ =>
    .ok (match arr[index]? with
      | some (.undefinedRef _) => true
      | _ => false)

/-- `YrsText::insert` (`text.rs` lines 91-96): unwraps the transaction
(panic when freed), then the engine text insertion `engineInsert` on the
text branch state (abstract in `τ`). -/
def YrsText.insert (engineInsert : τ → Nat → String → τ)
    (t : YrsTransactionCell σ) (text : τ) (index : Nat) (chunk : String) :
    RustResult τ :=
  match t with
  | none => .panicked
  | some _ => .ok (engineInsert text index chunk)

/-- `YrsText::get_string` (`text.rs` lines 143-148): unwraps the transaction
(panic when freed), then the engine's `get_string`. -/
def YrsText.get_string (engineGetString : τ → String)
    (t : YrsTransactionCell σ) (text : τ) : RustResult String :=
  match t with
  | none => .panicked
  | some _ => .ok (engineGetString text)

/-- `yrs::types::EntryChange` (matched in `mapchange.rs`): the engine's map
entry change event. -/
inductive EntryChange (α : Type) where
  | inserted (value : Out α)
  | updated (oldValue newValue : Out α)
  | removed (value : Out α)
deriving DecidableEq, Repr

/-- `YrsEntryChange` (`mapchange.rs` lines 9-20): the boundary change
variant, restricted to JSON string payloads. -/
inductive YrsEntryChange where
  | Inserted (value : String)
  | Updated (old_value new_value : String)
  | Removed (value : String)
deriving DecidableEq, Repr

/-- `YrsMapChange` (`mapchange.rs` lines 4-7). -/
structure YrsMapChange where
  key : String
  change : YrsEntryChange
deriving DecidableEq, Repr

/-- `try_from_entry_change` (`mapchange.rs` lines 25-73): scalar
(`Out::Any`) payloads are JSON-encoded into the boundary variant; any nested
shared type or undefined reference in the inserted value, the removed value,
or either side of an update makes the function return `None`. -/
def try_from_entry_change (toJson : α → String) (key : String)
    (item : EntryChange α) : Option YrsMapChange :=
  match item with
  | .inserted v =>
    match v with
    | .any a => some ⟨key, .Inserted (toJson a)⟩
    | _ => none
  | .updated o n =>
    match o, n with
    | .any oa, .any na => some ⟨key, .Updated (toJson oa) (toJson na)⟩
    | _, _ => none
  | .removed v =>
    match v with
    | .any a => some ⟨key, .Removed (toJson a)⟩
    | _ => none

/-- Whether an `Out` value is a plain scalar (`Out::Any`). -/
def Out.isScalar : Out α → Bool
  | .any _ => true
  | _ => false

/-- The string an `Out` value contributes to the `each` delegate trace: its
JSON encoding when it is a scalar, the untouched empty buffer otherwise. -/
def Out.eachString (toJson : α → String) : Out α → String
  | .any a => toJson a
  | _ => ""

/-- Whether every `Out` value involved in an entry change is a plain
scalar. -/
def EntryChange.allScalar : EntryChange α → Bool
  | .inserted v => v.isScalar
  | .updated o n => o.isScalar && n.isScalar
  | .removed v => v.isScalar

/-- Modelled from the spec: the engine side of `YrsDoc::get_array` (`doc.rs`
lines 73-76 calls `yrs::Doc::get_or_insert_array`, which is outside the
repository).  A document's root-level collections are an association list
from names to branch addresses. -/
structure DocState where
  arrays : List (String × Nat)
deriving DecidableEq, Repr

/-- Modelled from the spec: the heap shared by every live document — each
document's branch table plus a fresh-address counter standing for the
allocator (distinct live branch allocations have distinct addresses; spec
section 4.3 identity contract and section 3 branch invariant). -/
structure Engine where
  docs : List DocState
  nextPtr : Nat
deriving DecidableEq, Repr

/-- Association-list lookup of a named root collection. -/
def DocState.lookupName : List (String × Nat) → String → Option Nat
  | [], _ => none
  | kv :: rest, name => if kv.1 = name then some kv.2 else DocState.lookupName rest name

/-- `YrsDoc::get_array` followed by `YrsArray::raw_ptr` (`doc.rs` lines
73-76, `array.rs` lines 73-76): `get_or_insert_array(name)` returns the
branch already registered under `name` when there is one and otherwise
allocates a fresh branch and registers it; `raw_ptr` is that branch's
address (`YrsCollectionPtr`, `doc.rs` lines 259-292, a transparent
`*const Branch`).  Takes the engine state and a document handle (index into
the live documents), returns the updated engine and the facade's
`raw_ptr` (`none` for an invalid document handle). -/
def YrsDoc.get_array (e : Engine) (d : Nat) (name : String) :
    Engine × Option Nat :=
  match e.docs[d]? with
  | none => (e, none)
  | some ds =>
    match DocState.lookupName ds.arrays name with
    | some p => (e, some p)
    | none =>
      (⟨e.docs.set d ⟨(name, e.nextPtr) :: ds.arrays⟩, e.nextPtr + 1⟩,
        some e.nextPtr)

/-- Every branch address registered anywhere in the engine is below the
allocator counter. -/
def Engine.PtrsBounded (e : Engine) : Prop :=
  ∀ ds ∈ e.docs, ∀ kv ∈ ds.arrays, kv.2 < e.nextPtr

/-- Branch addresses registered in two distinct documents never
coincide. -/
def Engine.CrossDisjoint (e : Engine) : Prop :=
  e.docs.Pairwise fun a b => ∀ kv ∈ a.arrays, ∀ kw ∈ b.arrays, kv.2 ≠ kw.2

/-- Auxiliary: a successful association-list lookup returns the second
component of some list entry. -/
theorem DocState.lookupName_mem (l : List (String × Nat)) (name : String)
    (p : Nat) (h : DocState.lookupName l name = some p) :
    ∃ kv, kv ∈ l ∧ kv.2 = p := by
  induction l with
  | nil => simp [DocState.lookupName] at h
  | cons kv rest ih =>
    unfold DocState.lookupName at h
    by_cases hk : kv.1 = name
    · rw [if_pos hk] at h
      exact ⟨kv, List.mem_cons_self kv rest, Option.some.inj h⟩
    · rw [if_neg hk] at h
      obtain ⟨kw, hmem, hp⟩ := ih h
      exact ⟨kw, List.mem_cons_of_mem kv hmem, hp⟩

/-- Auxiliary: any registered branch address in a document reachable by
index is below the allocator counter. -/
theorem Engine.ptrsBounded_get (e : Engine) (hb : e.PtrsBounded) (d : Nat)
    (ds : DocState) (hg : e.docs[d]? = some ds) (kv : String × Nat)
    (hm : kv ∈ ds.arrays) : kv.2 < e.nextPtr := by
  obtain ⟨h, hds⟩ := List.getElem?_eq_some.mp hg
  exact hb ds (hds ▸ List.getElem_mem h) kv hm

/-- Auxiliary: branch addresses registered in two documents at distinct
indices differ. -/
theorem Engine.crossDisjoint_get (e : Engine) (hc : e.CrossDisjoint)
    (d1 d2 : Nat) (ds1 ds2 : DocState) (hne : d1 ≠ d2)
    (hg1 : e.docs[d1]? = some ds1) (hg2 : e.docs[d2]? = some ds2)
    (kv kw : String × Nat) (hm1 : kv ∈ ds1.arrays) (hm2 : kw ∈ ds2.arrays) :
    kv.2 ≠ kw.2 := by
  obtain ⟨h1, hds1⟩ := List.getElem?_eq_some.mp hg1
  obtain ⟨h2, hds2⟩ := List.getElem?_eq_some.mp hg2
  unfold Engine.CrossDisjoint at hc
  rw [List.pairwise_iff_getElem] at hc
  rcases Nat.lt_or_ge d1 d2 with hlt | hge
  · exact hc d1 d2 h1 h2 hlt kv (hds1 ▸ hm1) kw (hds2 ▸ hm2)
  · have hlt : d2 < d1 := lt_of_le_of_ne hge (Ne.symm hne)
    exact (hc d2 d1 h2 h1 hlt kw (hds2 ▸ hm2) kv (hds1 ▸ hm1)).symm

/-- C1: the claim says every transaction-taking operation invoked after
`free` surfaces a typed `TransactionFreed` error and never panics.  The code
does the opposite: `transaction_encode_update`, `transaction_state_vector`,
array `get`/`length`/`insert` and text `insert`/`get_string` all `unwrap`
the freed (`None`) transaction cell and panic, and `CodingError` has no
`TransactionFreed` variant at all.  This theorem evaluates the code at the
failing inputs: after `free`, each of these operations panics. -/
theorem freed_transaction_operations_panic (encode sv : σ → List Nat)
    (toJson : α → String) (fromJson : String → Option α)
    (engineInsert : List (Out α) → Nat → Out α → List (Out α))
    (textInsert : τ → Nat → String → τ) (textGet : τ → String)
    (t : YrsTransactionCell σ) (arr : List (Out α)) (text : τ)
    (i : Nat) (v chunk : String) :
    YrsTransaction.transaction_encode_update encode (YrsTransaction.free t)
      = .panicked
    ∧ YrsTransaction.transaction_state_vector sv (YrsTransaction.free t)
      = .panicked
    ∧ YrsArray.get toJson (YrsTransaction.free t) arr i = .panicked
    ∧ YrsArray.length (YrsTransaction.free t) arr = .panicked
    ∧ YrsArray.insert fromJson engineInsert (YrsTransaction.free t) arr i v
      = .panicked
    ∧ YrsText.insert textInsert (YrsTransaction.free t) text i chunk
      = .panicked
    ∧ YrsText.get_string textGet (YrsTransaction.free t) text = .panicked := by
  refine ⟨rfl, rfl, rfl, rfl, ?_, rfl, rfl⟩
  unfold YrsArray.insert YrsTransaction.free
  cases fromJson v <;> rfl

/-- C2: when the update bytes do not decode, `transaction_apply_update`
returns the typed `DecodingError` and the transaction cell — hence the
document store — is exactly what it was before the call: the decode runs
before the store is ever touched. -/
theorem apply_update_decode_failure_atomic (decode : List Nat → Option υ)
    (apply : σ → υ → Except σ σ) (t : YrsTransactionCell σ) (u : List Nat)
    (h : decode u = none) :
    YrsTransaction.transaction_apply_update decode apply t u
      = .ok (.error .DecodingError, t) := by
  unfold YrsTransaction.transaction_apply_update
  rw [h]

/-- Witness for C2 at a concrete store, transaction and byte sequence. -/
theorem apply_update_decode_failure_atomic_witness :
    YrsTransaction.transaction_apply_update (fun _ => (none : Option Unit))
      (fun (s : Nat) _ => Except.ok s)
      (some (⟨none, 5⟩ : TxState Nat)) [7]
      = .ok (.error .DecodingError, some ⟨none, 5⟩) :=
  apply_update_decode_failure_atomic _ _ _ _ rfl

/-- C5: `free` is idempotent — it unconditionally writes `None`, so freeing
a freed transaction is a no-op returning no error, the freed state is
terminal, and `free (free t)` equals `free t`. -/
theorem free_idempotent (t : YrsTransactionCell σ) :
    YrsTransaction.free (YrsTransaction.free t) = YrsTransaction.free t
    ∧ YrsTransaction.free (none : YrsTransactionCell σ) = none :=
  ⟨rfl, rfl⟩

/-- C8: a transaction begun with origin bytes `o` reports `some o` from its
`origin` accessor, and a transaction begun without an origin reports
`none`. -/
theorem transact_origin_round_trip (store : σ) (o : List Nat) :
    YrsTransaction.origin (YrsDoc.transact store (some o)) = some o
    ∧ YrsTransaction.origin (YrsDoc.transact store none) = none :=
  ⟨rfl, rfl⟩

/-- C9: `subdoc_guids` and `subdocs` on a freed transaction return the empty
vector without raising or panicking (`unwrap_or_default`), which is exactly
what a live transaction over a document with no subdocuments returns. -/
theorem subdocs_on_freed_empty (guids : σ → List String)
    (docs : σ → List Nat) (tx : TxState σ)
    (hg : guids tx.store = []) (hd : docs tx.store = []) :
    YrsTransaction.subdoc_guids guids none = []
    ∧ YrsTransaction.subdocs docs none = []
    ∧ YrsTransaction.subdoc_guids guids (some tx)
        = YrsTransaction.subdoc_guids guids none
    ∧ YrsTransaction.subdocs docs (some tx)
        = YrsTransaction.subdocs docs none := by
  refine ⟨rfl, rfl, ?_, ?_⟩ <;>
    simp [YrsTransaction.subdoc_guids, YrsTransaction.subdocs, hg, hd]

/-- Witness for C9 at a concrete store with no subdocuments. -/
theorem subdocs_on_freed_empty_witness :
    YrsTransaction.subdoc_guids (fun _ : Nat => ([] : List String)) none = []
    ∧ YrsTransaction.subdocs (fun _ : Nat => ([] : List Nat)) none = []
    ∧ YrsTransaction.subdoc_guids (fun _ : Nat => ([] : List String))
        (some ⟨none, 0⟩)
        = YrsTransaction.subdoc_guids (fun _ : Nat => ([] : List String)) none
    ∧ YrsTransaction.subdocs (fun _ : Nat => ([] : List Nat)) (some ⟨none, 0⟩)
        = YrsTransaction.subdocs (fun _ : Nat => ([] : List Nat)) none :=
  subdocs_on_freed_empty _ _ ⟨none, 0⟩ rfl rfl

/-- C10: `destroy` and `load` with a freed parent transaction are silent
no-ops — they return normally and leave the document and the transaction
cell unchanged. -/
theorem destroy_load_freed_noop (engineDestroy engineLoad : δ → σ → δ × σ)
    (doc : δ) :
    YrsDoc.destroy engineDestroy doc none = (doc, none)
    ∧ YrsDoc.load engineLoad doc none = (doc, none) :=
  ⟨rfl, rfl⟩

/-- C3 counterexample: the claim says `each` does not invoke the delegate
for entries holding nested collections, but on a one-element array holding
a nested map the delegate trace is `[""]` — the delegate is invoked once,
with the empty string, not skipped. -/
theorem array_each_invokes_delegate_on_nested :
    YrsArray.each (fun _ : Nat => "s") (some (⟨none, 0⟩ : TxState Nat))
      [Out.ymap 0] = .ok [""]
    ∧ RustResult.ok ([""] : List String) ≠ .ok ([] : List String) :=
  ⟨rfl, by decide⟩

/-- C3 amended: `to_a` surfaces exactly the entries holding a plain scalar,
in element order, JSON-encoded, omitting nested-collection entries; `each`
invokes the delegate once per entry in element order, passing the JSON
encoding for scalar entries and the empty string for every other entry (it
does not skip nested entries). -/
theorem array_bulk_readers_amended (toJson : α → String) (tx : TxState σ)
    (arr : List (Out α)) :
    YrsArray.to_a toJson (some tx) arr
      = .ok ((arr.filter fun v => v.isScalar).map (Out.eachString toJson))
    ∧ YrsArray.each toJson (some tx) arr
      = .ok (arr.map (Out.eachString toJson)) := by
  have h1 : ∀ l : List (Out α),
      (l.filterMap fun v =>
        match v with
        | .any a => some (toJson a)
        | _ => none)
      = (l.filter fun v => v.isScalar).map (Out.eachString toJson) := by
    intro l
    induction l with
    | nil => rfl
    | cons v rest ih => cases v <;> simp [Out.isScalar, Out.eachString, ih]
  have h2 : ∀ l : List (Out α),
      (l.map fun v =>
        match v with
        | .any a => toJson a
        | _ => "")
      = l.map (Out.eachString toJson) := by
    intro l
    induction l with
    | nil => rfl
    | cons v rest ih => cases v <;> simp [Out.eachString, ih]
  exact ⟨by unfold YrsArray.to_a; rw [h1], by unfold YrsArray.each; rw [h2]⟩

/-- C6: a map change record is produced exactly when every value involved in
the entry change is a plain scalar — an inserted, removed, old or new value
that is a nested collection or an undefined reference yields no record — and
scalar values are surfaced as their JSON encodings under the original
key. -/
theorem mapchange_scalar_boundary (toJson : α → String) (key : String)
    (item : EntryChange α) :
    ((try_from_entry_change toJson key item).isSome ↔ item.allScalar = true)
    ∧ (∀ a, item = .inserted (.any a) →
        try_from_entry_change toJson key item
          = some ⟨key, .Inserted (toJson a)⟩)
    ∧ (∀ oa na, item = .updated (.any oa) (.any na) →
        try_from_entry_change toJson key item
          = some ⟨key, .Updated (toJson oa) (toJson na)⟩)
    ∧ (∀ a, item = .removed (.any a) →
        try_from_entry_change toJson key item
          = some ⟨key, .Removed (toJson a)⟩) := by
  refine ⟨?_, ?_, ?_, ?_⟩
  · cases item with
    | inserted v =>
      cases v <;>
        simp [try_from_entry_change, EntryChange.allScalar, Out.isScalar]
    | updated o n =>
      cases o <;> cases n <;>
        simp [try_from_entry_change, EntryChange.allScalar, Out.isScalar]
    | removed v =>
      cases v <;>
        simp [try_from_entry_change, EntryChange.allScalar, Out.isScalar]
  · rintro a rfl; rfl
  · rintro oa na rfl; rfl
  · rintro a rfl; rfl

/-- Witness for C6: a concrete scalar insertion is surfaced JSON-encoded. -/
theorem mapchange_scalar_boundary_witness :
    try_from_entry_change (fun _ : Nat => "3") "k"
      (EntryChange.inserted (Out.any 3))
      = some ⟨"k", YrsEntryChange.Inserted "3"⟩ :=
  (mapchange_scalar_boundary (fun _ : Nat => "3") "k"
    (EntryChange.inserted (Out.any 3))).2.1 3 rfl

/-- C7: on an active transaction, `get` at an index at or past the array's
length returns the `EncodingError` result rather than panicking, while
`is_undefined` returns `true` exactly when the element present at the index
is an undefined reference — so an out-of-range read is distinguishable from
a tombstoned/undefined slot. -/
theorem array_get_oob_is_undefined (toJson : α → String) (tx : TxState σ)
    (arr : List (Out α)) (i : Nat) :
    (arr.length ≤ i →
      YrsArray.get toJson (some tx) arr i = .ok (.error .EncodingError))
    ∧ (YrsArray.is_undefined (some tx) arr i = .ok true
        ↔ ∃ b, arr[i]? = some (Out.undefinedRef b)) := by
  constructor
  · intro h
    unfold YrsArray.get
    rw [List.getElem?_eq_none h]
  · unfold YrsArray.is_undefined
    cases h : arr[i]? with
    | none => simp [h]
    | some v => cases v <;> simp [h]

/-- Witness for C7: reading index 3 of a one-element array surfaces
`EncodingError`, and `is_undefined` there is `false`. -/
theorem array_get_oob_is_undefined_witness :
    YrsArray.get (fun _ : Nat => "7") (some (⟨none, 0⟩ : TxState Nat))
      [Out.any 7] 3 = .ok (.error .EncodingError) :=
  (array_get_oob_is_undefined (fun _ : Nat => "7") ⟨none, 0⟩
    [Out.any 7] 3).1 (by decide)

/-- Auxiliary: `get_array` when the name is already registered returns the
registered branch address and leaves the engine unchanged. -/
theorem YrsDoc.get_array_hit (e : Engine) (d : Nat) (name : String)
    (ds : DocState) (p : Nat) (hg : e.docs[d]? = some ds)
    (hl : DocState.lookupName ds.arrays name = some p) :
    YrsDoc.get_array e d name = (e, some p) := by
  unfold YrsDoc.get_array
  rw [hg]
  dsimp only
  rw [hl]

/-- Auxiliary: `get_array` when the name is not yet registered allocates the
next fresh address, registers it, and bumps the allocator. -/
theorem YrsDoc.get_array_miss (e : Engine) (d : Nat) (name : String)
    (ds : DocState) (hg : e.docs[d]? = some ds)
    (hl : DocState.lookupName ds.arrays name = none) :
    YrsDoc.get_array e d name
      = (⟨e.docs.set d ⟨(name, e.nextPtr) :: ds.arrays⟩, e.nextPtr + 1⟩,
          some e.nextPtr) := by
  unfold YrsDoc.get_array
  rw [hg]
  dsimp only
  rw [hl]

/-- C4: on a well-formed engine, requesting the array named `name` twice on
the same live document yields facades with equal `raw_ptr` handle
identities (and a handle is produced), while requesting it on two distinct
live documents yields unequal handle identities. -/
theorem get_array_handle_identity (e : Engine) (d1 d2 : Nat) (name : String)
    (hb : Engine.PtrsBounded e) (hc : Engine.CrossDisjoint e)
    (h1 : d1 < e.docs.length) (h2 : d2 < e.docs.length) (hne : d1 ≠ d2) :
    (YrsDoc.get_array (YrsDoc.get_array e d1 name).1 d1 name).2
      = (YrsDoc.get_array e d1 name).2
    ∧ (YrsDoc.get_array e d1 name).2.isSome = true
    ∧ (YrsDoc.get_array (YrsDoc.get_array e d1 name).1 d2 name).2.isSome
        = true
    ∧ (YrsDoc.get_array (YrsDoc.get_array e d1 name).1 d2 name).2
        ≠ (YrsDoc.get_array e d1 name).2 := by
  have hd1 : e.docs[d1]? = some e.docs[d1] := List.getElem?_eq_getElem h1
  have hd2 : e.docs[d2]? = some e.docs[d2] := List.getElem?_eq_getElem h2
  cases hit1 : DocState.lookupName (e.docs[d1]).arrays name with
  | some p =>
    have eA := YrsDoc.get_array_hit e d1 name _ p hd1 hit1
    obtain ⟨kv, hmv, hkv⟩ := DocState.lookupName_mem _ _ _ hit1
    cases hit2 : DocState.lookupName (e.docs[d2]).arrays name with
    | some q =>
      have eC := YrsDoc.get_array_hit e d2 name _ q hd2 hit2
      obtain ⟨kw, hmw, hkw⟩ := DocState.lookupName_mem _ _ _ hit2
      have hpq : p ≠ q := by
        have hd := Engine.crossDisjoint_get e hc d1 d2 _ _ hne hd1 hd2
          kv kw hmv hmw
        rw [hkv, hkw] at hd
        exact hd
      refine ⟨?_, ?_, ?_, ?_⟩
      · simp only [eA]
      · simp [eA]
      · simp only [eA]
        simp [eC]
      · simp only [eA]
        simp only [eC]
        simp [Ne.symm hpq]
    | none =>
      have eC := YrsDoc.get_array_miss e d2 name _ hd2 hit2
      have hplt : p < e.nextPtr := by
        have := Engine.ptrsBounded_get e hb d1 _ hd1 kv hmv
        rw [hkv] at this
        exact this
      refine ⟨?_, ?_, ?_, ?_⟩
      · simp only [eA]
      · simp [eA]
      · simp only [eA]
        simp [eC]
      · simp only [eA]
        simp only [eC]
        simp [Nat.ne_of_gt hplt]
  | none =>
    have eA := YrsDoc.get_array_miss e d1 name _ hd1 hit1
    have hE1d1 :
        ((⟨e.docs.set d1 ⟨(name, e.nextPtr) :: (e.docs[d1]).arrays⟩,
            e.nextPtr + 1⟩ : Engine)).docs[d1]?
          = some ⟨(name, e.nextPtr) :: (e.docs[d1]).arrays⟩ :=
      List.getElem?_set_eq_of_lt _ h1
    have hlook :
        DocState.lookupName ((name, e.nextPtr) :: (e.docs[d1]).arrays) name
          = some e.nextPtr := by
      unfold DocState.lookupName
      rw [if_pos rfl]
    have eB := YrsDoc.get_array_hit _ d1 name _ e.nextPtr hE1d1 hlook
    have hE1d2 :
        ((⟨e.docs.set d1 ⟨(name, e.nextPtr) :: (e.docs[d1]).arrays⟩,
            e.nextPtr + 1⟩ : Engine)).docs[d2]?
          = some e.docs[d2] := by
      show (e.docs.set d1 _)[d2]? = _
      rw [List.getElem?_set_ne hne]
      exact hd2
    cases hit2 : DocState.lookupName (e.docs[d2]).arrays name with
    | some q =>
      have eC := YrsDoc.get_array_hit _ d2 name _ q hE1d2 hit2
      obtain ⟨kw, hmw, hkw⟩ := DocState.lookupName_mem _ _ _ hit2
      have hqlt : q < e.nextPtr := by
        have := Engine.ptrsBounded_get e hb d2 _ hd2 kw hmw
        rw [hkw] at this
        exact this
      refine ⟨?_, ?_, ?_, ?_⟩
      · simp only [eA]
        simp [eB]
      · simp [eA]
      · simp only [eA]
        simp [eC]
      · simp only [eA]
        simp only [eC]
        simp [Nat.ne_of_lt hqlt]
    | none =>
      have eC := YrsDoc.get_array_miss _ d2 name _ hE1d2 hit2
      refine ⟨?_, ?_, ?_, ?_⟩
      · simp only [eA]
        simp [eB]
      · simp [eA]
      · simp only [eA]
        simp [eC]
      · simp only [eA]
        simp only [eC]
        simp

/-- Witness for C4: on a fresh engine with two empty documents, requesting
the array named "a" on document 0 and then on document 1 yields different
handle identities. -/
theorem get_array_handle_identity_witness :
    (YrsDoc.get_array
        (YrsDoc.get_array (Engine.mk [DocState.mk [], DocState.mk []] 0)
          0 "a").1 1 "a").2
      ≠ (YrsDoc.get_array (Engine.mk [DocState.mk [], DocState.mk []] 0)
          0 "a").2 :=
  (get_array_handle_identity (Engine.mk [DocState.mk [], DocState.mk []] 0)
    0 1 "a"
    (by
      intro ds hds kv hkv
      simp at hds
      subst hds
      simp at hkv)
    (by
      unfold Engine.CrossDisjoint
      simp)
    (by decide) (by decide) (by decide)).2.2.2
